import Mathlib

/-!
# Verification of the pedidos-processor service (src/app.py)

Shallow embedding of the numeric normalizer `converter_valor_brasileiro`,
the billing extractor `processar_faturamento` and the order extractor
`processar_pedidos`, together with theorems settling the specification
claims about them.

Strings are modelled as Lean `String`/`List Char`; the HTML parser and the
JSON decoder are external libraries and appear as abstract parameters of
the endpoint models; everything written in src/app.py itself is translated
here definition by definition.
-/

namespace PedidosProcessor

/-! ## The numeric normalizer (src/app.py, converter_valor_brasileiro) -/

/-- Characters kept by the cleaning step `re.sub(r'[^\d,.]', '', ...)`:
ASCII digits, the comma and the dot survive, everything else is removed. -/
def mantemChar (c : Char) : Bool := c.isDigit || c = ',' || c = '.'

/-- Whitespace as stripped by Python `str.strip()` (ASCII range; any further
Unicode whitespace Python would strip is removed by the cleaning filter
anyway, so the distinction cannot affect the result). -/
def ehEspaco (c : Char) : Bool :=
  c = ' ' || c = '\t' || c = '\n' || c = '\r' || c = '\x0b' || c = '\x0c'

/-- Python `str.strip()` on a character list: drop whitespace at both ends. -/
def tirarExtremos (l : List Char) : List Char :=
  ((l.dropWhile ehEspaco).reverse.dropWhile ehEspaco).reverse

/-- The cleaned `valor_limpo`: the input stripped and filtered to digits,
commas and dots. -/
def limpar (s : String) : List Char :=
  (tirarExtremos s.toList).filter mantemChar

/-- Prepend a character to the first segment of a split. -/
def anexarCabeca (c : Char) : List (List Char) → List (List Char)
  | [] => [[c]]
  | p :: ps => (c :: p) :: ps

/-- Python `str.split('.')` on a character list: `dividirPonto "a.b" = ["a","b"]`,
`dividirPonto "" = [""]`, separators at the ends give empty segments. -/
def dividirPonto : List Char → List (List Char)
  | [] => [[]]
  | c :: cs =>
    if c = '.' then [] :: dividirPonto cs
    else anexarCabeca c (dividirPonto cs)

/-- The comma-to-dot substitution `replace(',', '.')` applied per character. -/
def trocaVirgula (c : Char) : Char := if c = ',' then '.' else c

/-- Acceptance test of Python `float(s)` restricted to strings made of ASCII
digits and dots (the only characters `valor_final` can contain): parsing
succeeds exactly when there is at most one dot and at least one digit. -/
def floatOk (l : List Char) : Bool := (l.count '.' ≤ 1 : Bool) && l.any Char.isDigit

/-- The branch of `converter_valor_brasileiro` that rewrites the cleaned
string before validation: with a comma it is Brazilian format (drop dots,
comma becomes the decimal dot); without a comma a two-segment split whose
second segment has two characters is already decimal, anything else treats
every dot as a thousands separator. -/
def processar (l : List Char) : List Char :=
  if l.contains ',' then
    (l.filter (fun c => c ≠ '.')).map trocaVirgula
  else if (dividirPonto l).length = 2 && ((dividirPonto l).getD 1 []).length = 2 then l
  else l.filter (fun c => c ≠ '.')

/-- The normalizer `converter_valor_brasileiro`: clean, branch on the comma, validate with
`float`, and fall back to "0" when the cleaned string is empty or the
processed string does not parse (the `except` branch of the source). -/
def converter_valor_brasileiro (valor_str : String) : String :=
  let valor_limpo := limpar valor_str
  if valor_limpo.isEmpty then "0"
  else
    let valor_final := processar valor_limpo
    if floatOk valor_final then String.mk valor_final else "0"

/-- Exact value of Python `float(s)` for the strings `converter_valor_brasileiro`
can return (ASCII digits with at most one dot): `none` models `ValueError`.
The value is computed in `ℚ`; the inputs reaching this function in the
service are short monetary strings, for which the IEEE double rounding of
the real `float` cannot move the value across the `> 0` comparison used by
the order extractor. -/
def digitosParaNat (l : List Char) : Nat :=
  l.foldl (fun a c => 10 * a + (c.toNat - 48)) 0

/-- The integer and fractional digit groups of a parseable float string. -/
def floatParts (s : String) : Option (List Char × List Char) :=
  let l := s.toList
  if floatOk l then
    let partes := dividirPonto l
    some (partes.getD 0 [], partes.getD 1 [])
  else none

/-- The exact value the accepted digit groups denote. -/
def valorPartes (p : List Char × List Char) : ℚ :=
  (digitosParaNat p.1 : ℚ) + (digitosParaNat p.2 : ℚ) / (10 : ℚ) ^ p.2.length

def floatVal (s : String) : Option ℚ :=
  (floatParts s).map valorPartes

/-! ## Rows (the data the HTML parser hands to the loops)

A table row, as consumed by the extraction loops: its class tokens
(`tr.get("class", []) or []`) and the stripped text of each `td`
(`cells[i].get_text(strip=True)`). Producing these from raw HTML is the
parser library's job and stays abstract. -/

structure Linha where
  classes : List String
  cells : List String
deriving DecidableEq, Repr

/-- Whether `a` occurs at the start of `b` (used by the substring test). -/
def ehPrefixo : List Char → List Char → Bool
  | [], _ => true
  | _ :: _, [] => false
  | a :: as, b :: bs => a = b && ehPrefixo as bs

/-- Python substring containment `agulha in alvo`. -/
def contemSubstr (agulha : List Char) : List Char → Bool
  | [] => ehPrefixo agulha []
  | c :: cs => ehPrefixo agulha (c :: cs) || contemSubstr agulha cs

/-- The marker-row test `any("destac" in str(c) for c in classes)`, shared by
both extractors: some class token contains the substring "destac". -/
def temDestac (r : Linha) : Bool :=
  r.classes.any (fun c => contemSubstr "destac".toList c.toList)

/-- Cell access `cells[i]` with the stripped text already extracted; rows reaching an
index are always long enough, so the default is never exercised. -/
def celula (cells : List String) (i : Nat) : String := cells.getD i ""

/-! ## The billing extractor (src/app.py, processar_faturamento loop body) -/

/-- One iteration of the billing loop: skip rows without the marker class,
skip rows with fewer than 16 cells, map the fixed cell positions, normalize
the total, skip when the client name or the normalized total is falsy, and
otherwise build the 10-key record in the order the source writes it. -/
def linhaFaturamento (r : Linha) : Option (List (String × String)) :=
  if !(temDestac r) then none
  else if r.cells.length < 16 then none
  else
    let cod_cli_for := celula r.cells 0
    let cliente := celula r.cells 1
    let data := celula r.cells 2
    let ref_produto := celula r.cells 5
    let grupo := celula r.cells 7
    let total_str := celula r.cells 9
    let vendedor := celula r.cells 11
    let marca := celula r.cells 12
    let cidade := celula r.cells 13
    let estado := celula r.cells 14
    let total := converter_valor_brasileiro total_str
    if cliente = "" || total = "" then none
    else some
      [("Cod. Cli./For.", cod_cli_for),
       ("Cliente/Fornecedor", cliente),
       ("Data", data),
       ("Total Item", total),
       ("Vendedor", vendedor),
       ("Ref. Produto", ref_produto),
       ("Des. Grupo Completa", grupo),
       ("Marca", marca),
       ("Cidade", cidade),
       ("Estado", estado)]

/-- The billing loop over all rows of the document, accumulating records in
document order. -/
def processar_faturamento : List Linha → List (List (String × String))
  | [] => []
  | r :: rs =>
    match linhaFaturamento r with
    | some item => item :: processar_faturamento rs
    | none => processar_faturamento rs

/-! ## The order extractor (src/app.py, processar_pedidos loop body) -/

/-- The total-validation block of the order loop: `float(total)` raising
`ValueError` is a skip, a parsed value `valor_float ≤ 0` is a skip, and
otherwise the already-assembled record is emitted. -/
def validarTotal (total : String) (registro : List (String × String)) :
    Option (List (String × String)) :=
  match floatVal total with
  | none => none
  | some valor_float => if valor_float ≤ 0 then none else some registro

/-- The body of the order loop for a marker row: exactly 12 cells are
required, the fixed positions are read, the total normalized, the required
fields checked, the total parsed with `float` and compared with zero, and
the 6-key record built. `none` is any of the skip paths (each of which
increments `linhas_ignoradas` in the loop below). -/
def linhaPedido (r : Linha) : Option (List (String × String)) :=
  if r.cells.length ≠ 12 then none
  else
    let data_pedido := celula r.cells 0
    let entrega_prod := celula r.cells 1
    let nr_pedido := celula r.cells 2
    let cliente := celula r.cells 4
    let vendedor := celula r.cells 6
    let total_str := celula r.cells 10
    let total := converter_valor_brasileiro total_str
    if nr_pedido = "" || cliente = "" || data_pedido = "" then none
    else
      validarTotal total
        [("Data", data_pedido),
         ("Entrega Prod.", if entrega_prod = "" then "" else entrega_prod),
         ("Nr. Ped", nr_pedido),
         ("Cliente", cliente),
         ("Vendedor", vendedor),
         ("Total", total)]

/-- The order loop: `(pedidos, linhas_processadas, linhas_ignoradas)`.
Rows without the marker class are not counted at all; a marker row is
counted in `linhas_processadas` and then either yields a record or is
counted in `linhas_ignoradas`. -/
def processar_pedidos : List Linha → List (List (String × String)) × Nat × Nat
  | [] => ([], 0, 0)
  | r :: rs =>
    let resto := processar_pedidos rs
    if temDestac r then
      match linhaPedido r with
      | some pedido => (pedido :: resto.1, resto.2.1 + 1, resto.2.2)
      | none => (resto.1, resto.2.1 + 1, resto.2.2 + 1)
    else resto

/-! ## The HTTP endpoints

The JSON decode and the HTML parse are external libraries; an endpoint
model carries them as opaque functions. `decodificarEnvelope b = some h`
models `json.loads` succeeding on a dict and `payload.get("html_email", "")`
returning `h`; `none` models the bare `except:` branch (bad JSON, or a
non-dict payload raising on `.get`), after which the body itself is used as
the HTML. `analisarHtml h = some linhas` models BeautifulSoup producing
the table rows of `h`; `none` models the parser raising (caught by the
handler's outermost `except`, which returns `[]`). -/

structure ModeloFaturamento where
  decodificarEnvelope : String → Option String
  analisarHtml : String → Option (List Linha)

structure ModeloPedidos where
  decodificarEnvelope : String → Option String
  analisarHtml5lib : String → Option (List Linha)
  analisarHtmlParser : String → Option (List Linha)

/-- The envelope step shared by both handlers: use the JSON field when the
envelope decodes, otherwise treat the whole body as HTML. -/
def resolverHtml (dec : String → Option String) (body_str : String) : String :=
  match dec body_str with
  | some h => h
  | none => body_str

/-- Model of `re.sub` on the pattern of CR/LF/TAB runs: every maximal run of CR/LF/TAB
becomes a single space (billing handler only). -/
def ehColapsavel (c : Char) : Bool := c = '\r' || c = '\n' || c = '\t'

def colapsarAux : Bool → List Char → List Char
  | _, [] => []
  | dentroRun, c :: cs =>
    if ehColapsavel c then
      if dentroRun then colapsarAux true cs
      else ' ' :: colapsarAux true cs
    else c :: colapsarAux false cs

def colapsarEspacos (html : String) : String :=
  String.mk (colapsarAux false html.toList)

/-- The `/processar-faturamento` handler on an already-decoded, stripped
body: resolve the envelope, return `[]` on a falsy HTML string, collapse
whitespace, parse, run the billing loop; a parser exception ends in the
outermost `except`, returning `[]`. -/
def endpoint_faturamento (m : ModeloFaturamento) (body_str : String) : List (List (String × String)) :=
  let html := resolverHtml m.decodificarEnvelope body_str
  if html = "" then []
  else
    match m.analisarHtml (colapsarEspacos html) with
    | some linhas => processar_faturamento linhas
    | none => []

/-- The `/processar-pedidos` handler: same envelope step (no whitespace
collapsing here), html5lib first, `html.parser` as fallback when html5lib
raises; when both raise, the outermost `except` returns `[]`. -/
def endpoint_pedidos (m : ModeloPedidos) (body_str : String) : List (List (String × String)) :=
  let html := resolverHtml m.decodificarEnvelope body_str
  if html = "" then []
  else
    match m.analisarHtml5lib html with
    | some linhas => (processar_pedidos linhas).1
    | none =>
      match m.analisarHtmlParser html with
      | some linhas => (processar_pedidos linhas).1
      | none => []

/-! ## Concrete rows and endpoint models used to instantiate the theorems -/

/-- A qualifying 16-cell billing row. -/
def linhaTeste16 : Linha :=
  ⟨["destacado"],
    ["101", "Acme Ltda", "01/10/2025", "x3", "x4", "REF9", "x6", "Grupo A",
      "x8", "1.620,00", "x10", "Vend", "MarcaX", "CidadeY", "UF", "x15"]⟩

/-- A qualifying 12-cell order row with a positive total. -/
def linhaTeste12 : Linha :=
  ⟨["destacb"],
    ["01/10/2025", "02/10/2025", "555", "c3", "Cliente X", "c5", "Vend Y",
      "c7", "c8", "c9", "2,00", "Emp"]⟩

/-- A marker row with only 11 cells (skipped by the order extractor). -/
def linhaTeste11 : Linha :=
  ⟨["destaca"],
    ["01/10/2025", "02/10/2025", "555", "c3", "Cliente X", "c5", "Vend Y",
      "c7", "c8", "c9", "2,00"]⟩

/-- A marker row with too few cells for the billing extractor. -/
def linhaCurta : Linha := ⟨["destacado"], ["a", "b", "c"]⟩

/-- A 16-cell marker row with an empty client name. -/
def linhaSemCliente : Linha :=
  ⟨["destacado"],
    ["101", "", "01/10/2025", "x3", "x4", "REF9", "x6", "Grupo A",
      "x8", "1.620,00", "x10", "Vend", "MarcaX", "CidadeY", "UF", "x15"]⟩

/-- A 16-cell marker row whose raw total is garbage (normalizes to "0"). -/
def linhaTotalLixo : Linha :=
  ⟨["destacado"],
    ["101", "Acme Ltda", "01/10/2025", "x3", "x4", "REF9", "x6", "Grupo A",
      "x8", "N/A", "x10", "Vend", "MarcaX", "CidadeY", "UF", "x15"]⟩

/-- A 12-cell marker row whose raw total is garbage (normalizes to "0"). -/
def linhaPedidoLixo : Linha :=
  ⟨["destaca"],
    ["01/10/2025", "", "555", "c3", "Cliente X", "c5", "Vend Y",
      "c7", "c8", "c9", "N/A", "Emp"]⟩

/-- A billing endpoint model whose envelope never decodes and whose parser
returns a rowless document. -/
def modeloFatVazio : ModeloFaturamento := ⟨fun _ => none, fun _ => some []⟩

/-- The analogous order endpoint model. -/
def modeloPedVazio : ModeloPedidos :=
  ⟨fun _ => none, fun _ => some [], fun _ => some []⟩

/-! ## Helper lemmas -/

theorem dividirPonto_ne_nil (l : List Char) : dividirPonto l ≠ [] := by
  cases l with
  | nil => simp [dividirPonto]
  | cons c cs =>
    rw [dividirPonto]
    by_cases hc : c = '.'
    · simp [hc]
    · rw [if_neg hc]
      cases h : dividirPonto cs <;> simp [anexarCabeca]

theorem dividirPonto_length (l : List Char) :
    (dividirPonto l).length = l.count '.' + 1 := by
  induction l with
  | nil => simp [dividirPonto]
  | cons c cs ih =>
    rw [dividirPonto]
    by_cases hc : c = '.'
    · simp [hc, List.count_cons, ih]
    · rw [if_neg hc]
      cases h : dividirPonto cs with
      | nil => exact absurd h (dividirPonto_ne_nil cs)
      | cons p ps =>
        rw [h] at ih
        simp only [anexarCabeca, List.length_cons] at ih ⊢
        simp [List.count_cons, hc, ih]

theorem mem_dividirPonto (l p : List Char) (c : Char)
    (hp : p ∈ dividirPonto l) (hc : c ∈ p) : c ∈ l ∧ c ≠ '.' := by
  induction l generalizing p with
  | nil =>
    simp [dividirPonto] at hp
    subst hp
    exact absurd hc (List.not_mem_nil c)
  | cons a cs ih =>
    rw [dividirPonto] at hp
    by_cases ha : a = '.'
    · rw [if_pos ha] at hp
      rcases List.mem_cons.mp hp with hp0 | hp1
      · subst hp0; exact absurd hc (List.not_mem_nil c)
      · have := ih p hp1 hc
        exact ⟨List.mem_cons_of_mem a this.1, this.2⟩
    · rw [if_neg ha] at hp
      cases h : dividirPonto cs with
      | nil => exact absurd h (dividirPonto_ne_nil cs)
      | cons q qs =>
        rw [h, anexarCabeca] at hp
        rcases List.mem_cons.mp hp with hp0 | hp1
        · subst hp0
          rcases List.mem_cons.mp hc with hc0 | hc1
          · subst hc0; exact ⟨List.mem_cons_self c cs, ha⟩
          · have := ih q (h ▸ List.mem_cons_self q qs) hc1
            exact ⟨List.mem_cons_of_mem a this.1, this.2⟩
        · have := ih p (h ▸ List.mem_cons_of_mem q hp1) hc
          exact ⟨List.mem_cons_of_mem a this.1, this.2⟩

theorem mem_limpar (s : String) (c : Char) (h : c ∈ limpar s) :
    mantemChar c = true :=
  (List.mem_filter.mp h).2

theorem isDigit_trocaVirgula (c : Char) :
    (trocaVirgula c).isDigit = c.isDigit := by
  by_cases h : c = ','
  · subst h; decide
  · simp [trocaVirgula, h]

theorem processar_sem_digito (l : List Char) (h : l.any Char.isDigit = false) :
    (processar l).any Char.isDigit = false := by
  rw [List.any_eq_false] at h ⊢
  intro x hx
  rw [processar] at hx
  split at hx
  · obtain ⟨y, hy, hxy⟩ := List.mem_map.mp hx
    have hyl : y ∈ l := (List.mem_filter.mp hy).1
    subst hxy
    rw [isDigit_trocaVirgula]
    exact h y hyl
  · split at hx
    · exact h x hx
    · exact h x (List.mem_filter.mp hx).1

theorem processar_mem (l : List Char) (x : Char) (hx : x ∈ processar l) :
    (x ∈ l) ∨ (x = '.' ∧ ',' ∈ l) := by
  rw [processar] at hx
  split at hx
  · obtain ⟨y, hy, hxy⟩ := List.mem_map.mp hx
    have hyl : y ∈ l := (List.mem_filter.mp hy).1
    subst hxy
    by_cases hc : y = ','
    · subst hc; exact Or.inr ⟨rfl, hyl⟩
    · rw [trocaVirgula, if_neg hc]; exact Or.inl hyl
  · split at hx
    · exact Or.inl hx
    · exact Or.inl (List.mem_filter.mp hx).1

theorem sem_digito_zero (s : String) (h : (limpar s).any Char.isDigit = false) :
    converter_valor_brasileiro s = "0" := by
  simp only [converter_valor_brasileiro]
  by_cases he : (limpar s).isEmpty
  · simp [he]
  · have hf : floatOk (processar (limpar s)) = false := by
      rw [floatOk, processar_sem_digito _ h, Bool.and_false]
    simp [he, hf]

theorem count_ponto_apos_troca (l : List Char) (h : '.' ∉ l) :
    (l.map trocaVirgula).count '.' = l.count ',' := by
  induction l with
  | nil => simp
  | cons c cs ih =>
    rw [List.mem_cons, not_or] at h
    obtain ⟨hc, hcs⟩ := h
    have hc2 : c ≠ '.' := fun hh => hc hh.symm
    by_cases hv : c = ','
    · subst hv
      simp [List.count_cons, trocaVirgula, ih hcs]
    · have ht : trocaVirgula c = c := by simp [trocaVirgula, hv]
      simp [List.count_cons, ht, ih hcs, hc2, hv]

theorem any_digit_map_troca (l : List Char) :
    (l.map trocaVirgula).any Char.isDigit = l.any Char.isDigit := by
  rw [List.any_map]
  induction l with
  | nil => rfl
  | cons c cs ih => simp [Function.comp, isDigit_trocaVirgula, ih]

theorem any_digit_filter_ponto (l : List Char) (h : l.any Char.isDigit = true) :
    (l.filter (fun c => c ≠ '.')).any Char.isDigit = true := by
  rw [List.any_eq_true] at h ⊢
  obtain ⟨x, hx, hdx⟩ := h
  refine ⟨x, List.mem_filter.mpr ⟨hx, ?_⟩, hdx⟩
  have : x ≠ '.' := by
    intro hx0; subst hx0; exact absurd hdx (by decide)
  simp [this]

theorem ponto_nao_mem_filter (l : List Char) :
    '.' ∉ l.filter (fun c => c ≠ '.') := by
  intro h
  have := (List.mem_filter.mp h).2
  simp at this

theorem processar_faturamento_eq_filterMap (linhas : List Linha) :
    processar_faturamento linhas = linhas.filterMap linhaFaturamento := by
  induction linhas with
  | nil => rfl
  | cons r rs ih =>
    rw [processar_faturamento, List.filterMap_cons]
    cases h : linhaFaturamento r <;> simp [h, ih]

theorem sem_destac_linhaFaturamento (r : Linha) (h : temDestac r = false) :
    linhaFaturamento r = none := by
  rw [linhaFaturamento, h]
  rfl

theorem sem_destac_faturamento (linhas : List Linha)
    (h : ∀ r ∈ linhas, temDestac r = false) :
    processar_faturamento linhas = [] := by
  induction linhas with
  | nil => rfl
  | cons r rs ih =>
    rw [processar_faturamento,
      sem_destac_linhaFaturamento r (h r (List.mem_cons_self r rs))]
    exact ih fun x hx => h x (List.mem_cons_of_mem r hx)

theorem sem_destac_pedidos (linhas : List Linha)
    (h : ∀ r ∈ linhas, temDestac r = false) :
    processar_pedidos linhas = ([], 0, 0) := by
  induction linhas with
  | nil => rfl
  | cons r rs ih =>
    rw [processar_pedidos]
    simp only [h r (List.mem_cons_self r rs), Bool.false_eq_true, if_false]
    exact ih fun x hx => h x (List.mem_cons_of_mem r hx)

theorem validarTotal_some_iff (total : String) (registro q : List (String × String)) :
    validarTotal total registro = some q ↔
      q = registro ∧ ∃ v, floatVal total = some v ∧ 0 < v := by
  cases hfv : floatVal total with
  | none => simp [validarTotal, hfv]
  | some v =>
    by_cases hv : v ≤ 0
    · simp only [validarTotal, hfv, if_pos hv]
      constructor
      · intro h
        exact absurd h (by simp)
      · rintro ⟨-, w, hw, hw0⟩
        rw [Option.some_inj] at hw
        subst hw
        exact absurd hw0 (not_lt.mpr hv)
    · simp only [validarTotal, hfv, if_neg hv]
      constructor
      · intro h
        exact ⟨(Option.some_inj.mp h).symm, v, rfl, lt_of_not_le hv⟩
      · rintro ⟨h, -⟩
        rw [h]

theorem floatVal_zero : floatVal "0" = some (valorPartes (['0'], [])) := by
  rw [floatVal, show floatParts "0" = some (['0'], []) from by decide]
  rfl

theorem valorPartes_zero : valorPartes (['0'], []) = 0 := by
  rw [valorPartes, show digitosParaNat (['0']) = 0 from by decide]
  norm_num [digitosParaNat]

theorem validarTotal_zero (registro : List (String × String)) :
    validarTotal "0" registro = none := by
  simp only [validarTotal, floatVal_zero]
  rw [if_pos (le_of_eq valorPartes_zero)]

theorem resolverHtml_none (dec : String → Option String) (b : String)
    (h : dec b = none) : resolverHtml dec b = b := by
  simp only [resolverHtml, h]

theorem converter_nunca_vazio (s : String) :
    converter_valor_brasileiro s ≠ "" := by
  simp only [converter_valor_brasileiro]
  by_cases he : (limpar s).isEmpty
  · simp [he]
  · by_cases hf : floatOk (processar (limpar s))
    · simp only [he, hf, Bool.false_eq_true, if_false, if_true]
      intro hmk
      have hdata : processar (limpar s) = [] := congrArg String.data hmk
      have := hf
      rw [floatOk, hdata] at this
      simp at this
    · simp [he, hf]

/-! ## Claim theorems -/

/-- Claim C1: for each documented input the numeric normalizer returns exactly the
documented output: "18.629,20" yields "18629.20", "373,50" yields "373.50",
"1.620,00" yields "1620.00", a bare "1.234" yields "1234", a bare "373.50"
yields "373.50", and any non-numeric garbage input (one offering no digit
after cleaning) yields "0". -/
theorem C1_normalizador_exemplos :
    converter_valor_brasileiro "18.629,20" = "18629.20" ∧
    converter_valor_brasileiro "373,50" = "373.50" ∧
    converter_valor_brasileiro "1.620,00" = "1620.00" ∧
    converter_valor_brasileiro "1.234" = "1234" ∧
    converter_valor_brasileiro "373.50" = "373.50" ∧
    ∀ s : String, (limpar s).any Char.isDigit = false →
      converter_valor_brasileiro s = "0" :=
  ⟨by decide, by decide, by decide, by decide, by decide,
    fun s h => sem_digito_zero s h⟩

/-- Witness for C1 at the garbage input "R$ abc!?". -/
theorem C1_witness :
    (limpar "R$ abc!?").any Char.isDigit = false ∧
    converter_valor_brasileiro "R$ abc!?" = "0" :=
  ⟨by decide, C1_normalizador_exemplos.2.2.2.2.2 "R$ abc!?" (by decide)⟩

/-- Claim C2 counterexample: "1,2,3" keeps a comma after cleaning, so the claim
says the result is the dots-removed, comma-replaced string "1.2.3"; the
code instead fails the float validation and returns "0". -/
theorem C2_contraexemplo :
    (limpar "1,2,3").contains ',' = true ∧
    String.mk (((limpar "1,2,3").filter (fun c => c ≠ '.')).map trocaVirgula) = "1.2.3" ∧
    converter_valor_brasileiro "1,2,3" = "0" ∧
    converter_valor_brasileiro "1,2,3" ≠
      String.mk (((limpar "1,2,3").filter (fun c => c ≠ '.')).map trocaVirgula) := by
  refine ⟨by decide, by decide, by decide, by decide⟩

/-- Claim C2 amended: for every input whose cleaned form contains exactly one
comma and at least one digit, the normalizer removes every '.' and replaces
the comma with '.'; with several commas, or no digit at all, the float
validation fails and the fallback "0" is returned instead. -/
theorem C2_virgula_brasileira (s : String)
    (h1 : (limpar s).count ',' = 1)
    (h2 : (limpar s).any Char.isDigit = true) :
    converter_valor_brasileiro s =
      String.mk (((limpar s).filter (fun c => c ≠ '.')).map trocaVirgula) := by
  have hmem : ',' ∈ limpar s :=
    List.count_pos_iff.mp (by rw [h1]; norm_num)
  have hcont : (limpar s).contains ',' = true := List.elem_eq_true_of_mem hmem
  have hemp : (limpar s).isEmpty = false :=
    List.isEmpty_eq_false.mpr (by intro hh; rw [hh] at hmem; exact absurd hmem (List.not_mem_nil _))
  have hproc : processar (limpar s) =
      ((limpar s).filter (fun c => c ≠ '.')).map trocaVirgula := by
    rw [processar, if_pos hcont]
  have hcount : (((limpar s).filter (fun c => c ≠ '.')).map trocaVirgula).count '.' = 1 := by
    rw [count_ponto_apos_troca _ (ponto_nao_mem_filter _),
      List.count_filter (by decide), h1]
  have hdig : (((limpar s).filter (fun c => c ≠ '.')).map trocaVirgula).any Char.isDigit = true := by
    rw [any_digit_map_troca]
    exact any_digit_filter_ponto _ h2
  have hfl : floatOk (((limpar s).filter (fun c => c ≠ '.')).map trocaVirgula) = true := by
    rw [floatOk, hcount, hdig]
    decide
  simp only [converter_valor_brasileiro, hemp, Bool.false_eq_true, if_false,
    hproc, hfl, if_true]

/-- Witness for the amended C2 at "2.545,00". -/
theorem C2_witness :
    (limpar "2.545,00").count ',' = 1 ∧
    (limpar "2.545,00").any Char.isDigit = true ∧
    converter_valor_brasileiro "2.545,00" =
      String.mk (((limpar "2.545,00").filter (fun c => c ≠ '.')).map trocaVirgula) ∧
    converter_valor_brasileiro "2.545,00" = "2545.00" :=
  ⟨by decide, by decide, C2_virgula_brasileira "2.545,00" (by decide) (by decide), by decide⟩

/-- Claim C3 counterexample: "1.2.50" is comma-free and its last '.'-segment is
"50" of length 2, so the claim says it passes through unchanged; the code
requires exactly two segments, treats the dots as thousands separators and
returns "1250". -/
theorem C3_contraexemplo :
    (limpar "1.2.50").contains ',' = false ∧
    (dividirPonto (limpar "1.2.50")).getLast? = some ['5', '0'] ∧
    String.mk (limpar "1.2.50") = "1.2.50" ∧
    converter_valor_brasileiro "1.2.50" = "1250" ∧
    converter_valor_brasileiro "1.2.50" ≠ String.mk (limpar "1.2.50") := by
  refine ⟨by decide, by decide, by decide, by decide, by decide⟩

/-- Claim C3 amended: a comma-free input splitting on '.' into exactly two
segments, the second of length exactly 2, passes through unchanged (as its
cleaned form); with any other number of segments every dot is removed. -/
theorem C3_decimal_preservado (s : String)
    (h0 : (limpar s).contains ',' = false)
    (h1 : (dividirPonto (limpar s)).length = 2)
    (h2 : ((dividirPonto (limpar s)).getD 1 []).length = 2) :
    converter_valor_brasileiro s = String.mk (limpar s) := by
  obtain ⟨a, b, hab⟩ := List.length_eq_two.mp h1
  have hb : (dividirPonto (limpar s)).getD 1 [] = b := by rw [hab]; rfl
  rw [hb] at h2
  obtain ⟨c, hc⟩ : ∃ c, c ∈ b := by
    cases b with
    | nil => simp at h2
    | cons x xs => exact ⟨x, List.mem_cons_self x xs⟩
  have hbmem : b ∈ dividirPonto (limpar s) := by
    rw [hab]; exact List.mem_cons_of_mem a (List.mem_cons_self b [])
  have hcl := mem_dividirPonto (limpar s) b c hbmem hc
  have hcvir : c ≠ ',' := by
    intro hh
    subst hh
    have hx : (limpar s).contains ',' = true := List.elem_eq_true_of_mem hcl.1
    rw [h0] at hx
    exact Bool.false_ne_true hx
  have hcdig : c.isDigit = true := by
    have := mem_limpar s c hcl.1
    rw [mantemChar] at this
    rcases Bool.or_eq_true_iff.mp this with h | h
    · rcases Bool.or_eq_true_iff.mp h with h | h
      · exact h
      · exact absurd (by simpa using h) hcvir
    · exact absurd (by simpa using h) hcl.2
  have hdig : (limpar s).any Char.isDigit = true :=
    List.any_eq_true.mpr ⟨c, hcl.1, hcdig⟩
  have hcount : (limpar s).count '.' = 1 := by
    have := dividirPonto_length (limpar s)
    rw [h1] at this
    omega
  have hemp : (limpar s).isEmpty = false :=
    List.isEmpty_eq_false.mpr
      (by intro hh; rw [hh] at hcl; exact absurd hcl.1 (List.not_mem_nil _))
  have hproc : processar (limpar s) = limpar s := by
    rw [processar, if_neg (by rw [h0]; exact Bool.false_ne_true),
      if_pos (by simp [hab, h2])]
  have hfl : floatOk (limpar s) = true := by
    rw [floatOk, hcount, hdig]
    decide
  simp only [converter_valor_brasileiro, hemp, Bool.false_eq_true, if_false,
    hproc, hfl, if_true]

/-- Witness for the amended C3 at "373.50". -/
theorem C3_witness :
    (limpar "373.50").contains ',' = false ∧
    (dividirPonto (limpar "373.50")).length = 2 ∧
    ((dividirPonto (limpar "373.50")).getD 1 []).length = 2 ∧
    converter_valor_brasileiro "373.50" = String.mk (limpar "373.50") :=
  ⟨by decide, by decide, by decide,
    C3_decimal_preservado "373.50" (by decide) (by decide) (by decide)⟩

/-- Claim C4: the numeric normalizer is a total function: any input with no digit
after cleaning gives "0", any input whose processed form fails the float
validation gives "0", and in general the result is either the fallback "0"
or the validated processed string. -/
theorem C4_nunca_propaga (s : String) :
    ((limpar s).any Char.isDigit = false → converter_valor_brasileiro s = "0") ∧
    (floatOk (processar (limpar s)) = false → converter_valor_brasileiro s = "0") ∧
    (converter_valor_brasileiro s = "0" ∨
      (floatOk (processar (limpar s)) = true ∧
        converter_valor_brasileiro s = String.mk (processar (limpar s)))) := by
  refine ⟨fun h => sem_digito_zero s h, ?_, ?_⟩
  · intro hf
    simp only [converter_valor_brasileiro]
    by_cases he : (limpar s).isEmpty
    · simp [he]
    · simp [he, hf]
  · simp only [converter_valor_brasileiro]
    by_cases he : (limpar s).isEmpty
    · exact Or.inl (by simp [he])
    · by_cases hf : floatOk (processar (limpar s))
      · exact Or.inr ⟨hf, by simp [he, hf]⟩
      · exact Or.inl (by simp [he, hf])

/-- Witness for C4 at "!!", which cleans to the empty string. -/
theorem C4_witness :
    (limpar "!!").any Char.isDigit = false ∧
    floatOk (processar (limpar "!!")) = false ∧
    converter_valor_brasileiro "!!" = "0" :=
  ⟨by decide, by decide, (C4_nunca_propaga "!!").1 (by decide)⟩

/-- Claim C5: a table row whose class attribute has a token containing the marker
substring, with at least 16 cells, non-empty client name and non-empty
normalized total, yields exactly one billing record with the 10 fixed keys
in the documented positional mapping; the loop accumulates the records of
the qualifying rows in document order. -/
theorem C5_faturamento_mapeamento :
    (∀ r : Linha, temDestac r = true → 16 ≤ r.cells.length →
      celula r.cells 1 ≠ "" →
      converter_valor_brasileiro (celula r.cells 9) ≠ "" →
      linhaFaturamento r = some
        [("Cod. Cli./For.", celula r.cells 0),
         ("Cliente/Fornecedor", celula r.cells 1),
         ("Data", celula r.cells 2),
         ("Total Item", converter_valor_brasileiro (celula r.cells 9)),
         ("Vendedor", celula r.cells 11),
         ("Ref. Produto", celula r.cells 5),
         ("Des. Grupo Completa", celula r.cells 7),
         ("Marca", celula r.cells 12),
         ("Cidade", celula r.cells 13),
         ("Estado", celula r.cells 14)]) ∧
    (∀ linhas : List Linha,
      processar_faturamento linhas = linhas.filterMap linhaFaturamento) := by
  refine ⟨?_, processar_faturamento_eq_filterMap⟩
  intro r hd hlen hcli htot
  simp only [linhaFaturamento, hd, Bool.not_true, Bool.false_eq_true, if_false]
  rw [if_neg (by omega), if_neg (by simp [hcli, htot])]

/-- Witness for C5 at a concrete qualifying billing row. -/
theorem C5_witness :
    temDestac linhaTeste16 = true ∧
    16 ≤ linhaTeste16.cells.length ∧
    celula linhaTeste16.cells 1 ≠ "" ∧
    converter_valor_brasileiro (celula linhaTeste16.cells 9) ≠ "" ∧
    linhaFaturamento linhaTeste16 = some
      [("Cod. Cli./For.", "101"), ("Cliente/Fornecedor", "Acme Ltda"),
       ("Data", "01/10/2025"), ("Total Item", "1620.00"), ("Vendedor", "Vend"),
       ("Ref. Produto", "REF9"), ("Des. Grupo Completa", "Grupo A"),
       ("Marca", "MarcaX"), ("Cidade", "CidadeY"), ("Estado", "UF")] ∧
    processar_faturamento [linhaTeste16] =
      [[("Cod. Cli./For.", "101"), ("Cliente/Fornecedor", "Acme Ltda"),
        ("Data", "01/10/2025"), ("Total Item", "1620.00"), ("Vendedor", "Vend"),
        ("Ref. Produto", "REF9"), ("Des. Grupo Completa", "Grupo A"),
        ("Marca", "MarcaX"), ("Cidade", "CidadeY"), ("Estado", "UF")]] :=
  ⟨by decide, by decide, by decide, by decide,
    (C5_faturamento_mapeamento.1 linhaTeste16 (by decide) (by decide)
      (by decide) (by decide)).trans (by decide),
    (C5_faturamento_mapeamento.2 [linhaTeste16]).trans (by decide)⟩

/-- Claim C6: the billing extractor drops marker rows with fewer than 16 cells,
drops marker rows with an empty client name or an empty normalized total,
and a dropped row does not affect the records produced for the other rows. -/
theorem C6_faturamento_descartes :
    (∀ r : Linha, temDestac r = true → r.cells.length < 16 →
      linhaFaturamento r = none) ∧
    (∀ r : Linha, temDestac r = true → 16 ≤ r.cells.length →
      (celula r.cells 1 = "" ∨ converter_valor_brasileiro (celula r.cells 9) = "") →
      linhaFaturamento r = none) ∧
    (∀ (antes depois : List Linha) (r : Linha), linhaFaturamento r = none →
      processar_faturamento (antes ++ r :: depois) =
        processar_faturamento (antes ++ depois)) := by
  refine ⟨?_, ?_, ?_⟩
  · intro r hd hlen
    simp only [linhaFaturamento, hd, Bool.not_true, Bool.false_eq_true, if_false]
    rw [if_pos hlen]
  · intro r hd hlen hvazio
    simp only [linhaFaturamento, hd, Bool.not_true, Bool.false_eq_true, if_false]
    rw [if_neg (by omega), if_pos (by rcases hvazio with h | h <;> simp [h])]
  · intro antes depois r hr
    rw [processar_faturamento_eq_filterMap, processar_faturamento_eq_filterMap,
      List.filterMap_append, List.filterMap_append, List.filterMap_cons, hr]

/-- Witness for C6: a 3-cell marker row and an empty-client marker row are
both dropped, and dropping leaves the surrounding rows untouched. -/
theorem C6_witness :
    temDestac linhaCurta = true ∧ linhaCurta.cells.length < 16 ∧
    linhaFaturamento linhaCurta = none ∧
    temDestac linhaSemCliente = true ∧ 16 ≤ linhaSemCliente.cells.length ∧
    celula linhaSemCliente.cells 1 = "" ∧
    linhaFaturamento linhaSemCliente = none ∧
    processar_faturamento ([linhaTeste16] ++ linhaCurta :: [linhaTeste16]) =
      processar_faturamento ([linhaTeste16] ++ [linhaTeste16]) := by
  have h1 := C6_faturamento_descartes.1 linhaCurta (by decide) (by decide)
  have h2 := C6_faturamento_descartes.2.1 linhaSemCliente (by decide) (by decide)
    (Or.inl (by decide))
  exact ⟨by decide, by decide, h1, by decide, by decide, by decide, h2,
    C6_faturamento_descartes.2.2 [linhaTeste16] [linhaTeste16] linhaCurta h1⟩

/-- Claim C7: the order extractor emits a record for a row (inside the loop, for a
marker-matching row) iff the row has exactly 12 cells, its order number,
client name and date are non-empty, and the normalized total parses as a
number strictly greater than zero; every emitted record has exactly the 6
documented fields. -/
theorem C7_pedidos_criterio (r : Linha) :
    ((∃ p, linhaPedido r = some p) ↔
      (r.cells.length = 12 ∧ celula r.cells 2 ≠ "" ∧ celula r.cells 4 ≠ "" ∧
        celula r.cells 0 ≠ "" ∧
        ∃ v, floatVal (converter_valor_brasileiro (celula r.cells 10)) = some v ∧
          0 < v)) ∧
    (∀ p, linhaPedido r = some p →
      p = [("Data", celula r.cells 0),
           ("Entrega Prod.", if celula r.cells 1 = "" then "" else celula r.cells 1),
           ("Nr. Ped", celula r.cells 2),
           ("Cliente", celula r.cells 4),
           ("Vendedor", celula r.cells 6),
           ("Total", converter_valor_brasileiro (celula r.cells 10))]) ∧
    (∀ rs : List Linha, temDestac r = true →
      (processar_pedidos (r :: rs)).1 =
        match linhaPedido r with
        | some p => p :: (processar_pedidos rs).1
        | none => (processar_pedidos rs).1) := by
  refine ⟨⟨?_, ?_⟩, ?_, ?_⟩
  · rintro ⟨p, hp⟩
    simp only [linhaPedido] at hp
    by_cases h1 : r.cells.length ≠ 12
    · rw [if_pos h1] at hp; exact absurd hp (by simp)
    · rw [if_neg h1] at hp
      by_cases h2 : (decide (celula r.cells 2 = "") || decide (celula r.cells 4 = "") ||
          decide (celula r.cells 0 = "")) = true
      · rw [if_pos h2] at hp; exact absurd hp (by simp)
      · rw [if_neg h2] at hp
        simp only [Bool.or_eq_true, decide_eq_true_eq, not_or] at h2
        obtain ⟨-, v, hfv, hv⟩ := (validarTotal_some_iff _ _ _).mp hp
        exact ⟨not_not.mp h1, h2.1.1, h2.1.2, h2.2, v, hfv, hv⟩
  · rintro ⟨hlen, hnr, hcli, hdata, v, hfv, hv⟩
    simp only [linhaPedido, if_neg (not_not_intro hlen),
      if_neg (show ¬((decide (celula r.cells 2 = "") || decide (celula r.cells 4 = "") ||
        decide (celula r.cells 0 = "")) = true) by simp [hnr, hcli, hdata])]
    exact ⟨_, (validarTotal_some_iff _ _ _).mpr ⟨rfl, v, hfv, hv⟩⟩
  · intro p hp
    simp only [linhaPedido] at hp
    by_cases h1 : r.cells.length ≠ 12
    · rw [if_pos h1] at hp; exact absurd hp (by simp)
    · rw [if_neg h1] at hp
      by_cases h2 : (decide (celula r.cells 2 = "") || decide (celula r.cells 4 = "") ||
          decide (celula r.cells 0 = "")) = true
      · rw [if_pos h2] at hp; exact absurd hp (by simp)
      · rw [if_neg h2] at hp
        exact ((validarTotal_some_iff _ _ _).mp hp).1
  · intro rs hd
    simp only [processar_pedidos, hd, if_true]
    cases linhaPedido r <;> rfl

/-- Witness for C7: the 12-cell row is accepted, the 11-cell row is not. -/
theorem C7_witness :
    (∃ p, linhaPedido linhaTeste12 = some p) ∧
    linhaPedido linhaTeste11 = none := by
  constructor
  · refine (C7_pedidos_criterio linhaTeste12).1.mpr
      ⟨by decide, by decide, by decide, by decide,
        valorPartes (['2'], ['0', '0']), ?_, ?_⟩
    · rw [show converter_valor_brasileiro (celula linhaTeste12.cells 10) = "2.00"
          from by decide,
        floatVal, show floatParts "2.00" = some (['2'], ['0', '0']) from by decide]
      rfl
    · rw [valorPartes, show digitosParaNat (['2']) = 2 from by decide,
        show digitosParaNat (['0', '0']) = 0 from by decide]
      norm_num
  · cases h : linhaPedido linhaTeste11 with
    | none => rfl
    | some p =>
      have hlen := ((C7_pedidos_criterio linhaTeste11).1.mp ⟨p, h⟩).1
      rw [show linhaTeste11.cells.length = 11 from by decide] at hlen
      exact absurd hlen (by decide)

/-- Claim C8: both endpoints always produce a (possibly empty) list: an empty
body yields [], a document-level parser failure yields [] (for orders, even
after the fallback parser also fails), and a parse with zero qualifying
rows yields []. -/
theorem C8_endpoints_lista_vazia :
    (∀ m : ModeloFaturamento, m.decodificarEnvelope "" = none →
      endpoint_faturamento m "" = []) ∧
    (∀ (m : ModeloFaturamento) (body : String),
      m.analisarHtml (colapsarEspacos (resolverHtml m.decodificarEnvelope body)) = none →
      endpoint_faturamento m body = []) ∧
    (∀ (m : ModeloFaturamento) (body : String) (linhas : List Linha),
      m.analisarHtml (colapsarEspacos (resolverHtml m.decodificarEnvelope body)) =
        some linhas →
      (∀ r ∈ linhas, temDestac r = false) →
      endpoint_faturamento m body = []) ∧
    (∀ m : ModeloPedidos, m.decodificarEnvelope "" = none →
      endpoint_pedidos m "" = []) ∧
    (∀ (m : ModeloPedidos) (body : String),
      m.analisarHtml5lib (resolverHtml m.decodificarEnvelope body) = none →
      m.analisarHtmlParser (resolverHtml m.decodificarEnvelope body) = none →
      endpoint_pedidos m body = []) ∧
    (∀ (m : ModeloPedidos) (body : String) (linhas : List Linha),
      m.analisarHtml5lib (resolverHtml m.decodificarEnvelope body) = some linhas →
      (∀ r ∈ linhas, temDestac r = false) →
      endpoint_pedidos m body = []) := by
  refine ⟨?_, ?_, ?_, ?_, ?_, ?_⟩
  · intro m hdec
    simp [endpoint_faturamento, resolverHtml_none _ _ hdec]
  · intro m body hparse
    simp only [endpoint_faturamento]
    by_cases hh : resolverHtml m.decodificarEnvelope body = ""
    · rw [if_pos hh]
    · rw [if_neg hh, hparse]
  · intro m body linhas hparse hnd
    simp only [endpoint_faturamento]
    by_cases hh : resolverHtml m.decodificarEnvelope body = ""
    · rw [if_pos hh]
    · rw [if_neg hh, hparse]
      exact sem_destac_faturamento linhas hnd
  · intro m hdec
    simp [endpoint_pedidos, resolverHtml_none _ _ hdec]
  · intro m body h5 hfb
    simp only [endpoint_pedidos]
    by_cases hh : resolverHtml m.decodificarEnvelope body = ""
    · rw [if_pos hh]
    · rw [if_neg hh, h5, hfb]
  · intro m body linhas h5 hnd
    simp only [endpoint_pedidos]
    by_cases hh : resolverHtml m.decodificarEnvelope body = ""
    · rw [if_pos hh]
    · rw [if_neg hh, h5]
      show (processar_pedidos linhas).1 = []
      rw [sem_destac_pedidos linhas hnd]

/-- Witness for C8 on concrete endpoint models. -/
theorem C8_witness :
    endpoint_faturamento modeloFatVazio "" = [] ∧
    endpoint_pedidos modeloPedVazio "" = [] ∧
    endpoint_faturamento modeloFatVazio "<p>oi</p>" = [] :=
  ⟨C8_endpoints_lista_vazia.1 modeloFatVazio rfl,
    C8_endpoints_lista_vazia.2.2.2.1 modeloPedVazio rfl,
    C8_endpoints_lista_vazia.2.2.1 modeloFatVazio "<p>oi</p>" [] rfl
      (fun r hr => absurd hr (List.not_mem_nil r))⟩

/-- Claim C9: in every run of the order loop, the marker rows seen equal the
records emitted plus the rows counted as ignored. -/
theorem C9_invariante_contadores (linhas : List Linha) :
    (processar_pedidos linhas).2.1 =
      (processar_pedidos linhas).1.length + (processar_pedidos linhas).2.2 := by
  induction linhas with
  | nil => rfl
  | cons r rs ih =>
    simp only [processar_pedidos]
    by_cases hd : temDestac r
    · simp only [hd, if_true]
      cases h : linhaPedido r <;> simp [ih] <;> omega
    · simp [hd, ih]

/-- Claim C10: the normalizer never returns the empty string, so the billing
empty-total drop can only fire through the client-name condition; billing
can emit a record whose total is the literal "0", while the order extractor
always drops such rows. -/
theorem C10_total_zero (r : Linha) :
    (∀ s : String, converter_valor_brasileiro s ≠ "") ∧
    (temDestac r = true → 16 ≤ r.cells.length →
      (linhaFaturamento r = none ↔ celula r.cells 1 = "")) ∧
    (temDestac r = true → 16 ≤ r.cells.length → celula r.cells 1 ≠ "" →
      converter_valor_brasileiro (celula r.cells 9) = "0" →
      linhaFaturamento r = some
        [("Cod. Cli./For.", celula r.cells 0),
         ("Cliente/Fornecedor", celula r.cells 1),
         ("Data", celula r.cells 2),
         ("Total Item", "0"),
         ("Vendedor", celula r.cells 11),
         ("Ref. Produto", celula r.cells 5),
         ("Des. Grupo Completa", celula r.cells 7),
         ("Marca", celula r.cells 12),
         ("Cidade", celula r.cells 13),
         ("Estado", celula r.cells 14)]) ∧
    (converter_valor_brasileiro (celula r.cells 10) = "0" →
      linhaPedido r = none) := by
  refine ⟨converter_nunca_vazio, ?_, ?_, ?_⟩
  · intro hd hlen
    simp only [linhaFaturamento, hd, Bool.not_true, Bool.false_eq_true, if_false]
    rw [if_neg (by omega)]
    constructor
    · intro h
      by_cases hcli : celula r.cells 1 = ""
      · exact hcli
      · rw [if_neg (by simp [hcli, converter_nunca_vazio])] at h
        exact absurd h (by simp)
    · intro h
      rw [if_pos (by simp [h])]
  · intro hd hlen hcli htot
    simp only [linhaFaturamento, hd, Bool.not_true, Bool.false_eq_true, if_false]
    rw [if_neg (by omega), if_neg (by simp [hcli, converter_nunca_vazio]), htot]
  · intro htot
    simp only [linhaPedido]
    by_cases hlen : r.cells.length ≠ 12
    · rw [if_pos hlen]
    · rw [if_neg hlen]
      by_cases hcampos : celula r.cells 2 = "" ∨ celula r.cells 4 = "" ∨
          celula r.cells 0 = ""
      · rw [if_pos (by rcases hcampos with h | h | h <;> simp [h])]
      · rw [not_or, not_or] at hcampos
        rw [if_neg (by simp [hcampos.1, hcampos.2.1, hcampos.2.2]), htot]
        exact validarTotal_zero _

/-- Witness for C10: a garbage billing total becomes a "0" record, the
same garbage order total drops the row. -/
theorem C10_witness :
    converter_valor_brasileiro "N/A" = "0" ∧
    converter_valor_brasileiro "" ≠ "" ∧
    linhaFaturamento linhaTotalLixo = some
      [("Cod. Cli./For.", "101"), ("Cliente/Fornecedor", "Acme Ltda"),
       ("Data", "01/10/2025"), ("Total Item", "0"), ("Vendedor", "Vend"),
       ("Ref. Produto", "REF9"), ("Des. Grupo Completa", "Grupo A"),
       ("Marca", "MarcaX"), ("Cidade", "CidadeY"), ("Estado", "UF")] ∧
    linhaPedido linhaPedidoLixo = none :=
  ⟨by decide, (C10_total_zero linhaTotalLixo).1 "",
    ((C10_total_zero linhaTotalLixo).2.2.1 (by decide) (by decide) (by decide)
      (by decide)).trans (by decide),
    (C10_total_zero linhaPedidoLixo).2.2.2 (by decide)⟩

end PedidosProcessor
